import Mathlib

set_option maxHeartbeats 1000000

namespace Looper

/-- Decoded PCM audio data, as the Web Audio AudioBuffer used by the looper:
a sample rate, a frame count, and one list of rational sample values per
channel. -/
structure AudioBuffer where
  sampleRate : Nat
  len : Nat
  channels : List (List ℚ)
deriving DecidableEq

/-- Channel count of a buffer (numberOfChannels in the source). -/
def AudioBuffer.numberOfChannels (b : AudioBuffer) : Nat := b.channels.length

/-- Sample list of one channel (getChannelData in the source; empty when the
channel index is out of range). -/
def getChannelData (b : AudioBuffer) (channel : Nat) : List ℚ :=
  b.channels.getD channel []

/-- Duration of a buffer in seconds (frame count over sample rate). -/
def AudioBuffer.duration (b : AudioBuffer) : ℚ := (b.len : ℚ) / (b.sampleRate : ℚ)

/-- Track state: the fields of the Track class that the verified claims
read or write. -/
structure Track where
  audioBuffer : Option AudioBuffer
  reversedBuffer : Option AudioBuffer
  hasAudio : Bool
  isPlaying : Bool
  isMuted : Bool
  isSolo : Bool
  channelFader : ℚ
  loopLength : ℚ
deriving DecidableEq

/-- Track.createReversedBuffer: a new buffer with the same channel count,
frame count and sample rate, where each channel is filled index by index
with the source sample at index length - 1 - i. -/
def createReversedBuffer (b : AudioBuffer) : AudioBuffer :=
  { sampleRate := b.sampleRate
    len := b.len
    channels := b.channels.map (fun originalData =>
      (List.range b.len).map (fun i => originalData.getD (b.len - 1 - i) 0)) }

/-- Recorder.loadFileToTrack, restricted to its effect on the target track:
install the decoded buffer, set the loop length to the buffer duration, mark
the track as having audio, derive the reversed buffer, and auto-play. -/
def loadFileToTrack (t : Track) (b : AudioBuffer) : Track :=
  { t with
    audioBuffer := some b
    loopLength := b.duration
    hasAudio := true
    reversedBuffer := some (createReversedBuffer b)
    isPlaying := true }

/-- C1: after a decoded buffer b is installed on a track, the derived
reversedBuffer has the same frame count, channel count and sample rate as b,
and for every channel c and sample index i its sample i equals b's sample
length - 1 - i. -/
theorem loadFileToTrack_reversedBuffer (t : Track) (b : AudioBuffer)
    (c i : Nat) (hc : c < b.numberOfChannels) (hi : i < b.len) :
    ∃ r : AudioBuffer, (loadFileToTrack t b).reversedBuffer = some r ∧
      r.len = b.len ∧
      r.numberOfChannels = b.numberOfChannels ∧
      r.sampleRate = b.sampleRate ∧
      (getChannelData r c).getD i 0 =
        (getChannelData b c).getD (b.len - 1 - i) 0 := by
  refine ⟨createReversedBuffer b, rfl, rfl, ?_, rfl, ?_⟩
  · simp [AudioBuffer.numberOfChannels, createReversedBuffer]
  · have hc' : c < b.channels.length := hc
    simp [getChannelData, createReversedBuffer, List.getD_eq_getElem?_getD,
      List.getElem?_map, List.getElem?_eq_getElem hc', List.getElem?_range hi]

/-- Witness for C1 at a concrete three-sample mono buffer. -/
theorem loadFileToTrack_reversedBuffer_witness :
    (0 : Nat) < (AudioBuffer.mk 44100 3 [[1, 2, 3]]).numberOfChannels ∧
    (0 : Nat) < (AudioBuffer.mk 44100 3 [[1, 2, 3]]).len ∧
    ∃ r : AudioBuffer,
      (loadFileToTrack
        (Track.mk none none false false false false (8/10) 4)
        (AudioBuffer.mk 44100 3 [[1, 2, 3]])).reversedBuffer = some r ∧
      r.len = (AudioBuffer.mk 44100 3 [[1, 2, 3]]).len ∧
      r.numberOfChannels = (AudioBuffer.mk 44100 3 [[1, 2, 3]]).numberOfChannels ∧
      r.sampleRate = (AudioBuffer.mk 44100 3 [[1, 2, 3]]).sampleRate ∧
      (getChannelData r 0).getD 0 0 =
        (getChannelData (AudioBuffer.mk 44100 3 [[1, 2, 3]]) 0).getD
          ((AudioBuffer.mk 44100 3 [[1, 2, 3]]).len - 1 - 0) 0 :=
  ⟨by decide, by decide,
    loadFileToTrack_reversedBuffer
      (Track.mk none none false false false false (8/10) 4)
      (AudioBuffer.mk 44100 3 [[1, 2, 3]]) 0 0 (by decide) (by decide)⟩

/-- Track.setMute: record the flag and force the channel fader gain to 0
when muted, or to the fixed reference level 0.8 when unmuted. -/
def setMute (muted : Bool) (t : Track) : Track :=
  { t with isMuted := muted, channelFader := if muted then 0 else 8/10 }

/-- Track.setSolo: record the solo flag. -/
def setSolo (solo : Bool) (t : Track) : Track := { t with isSolo := solo }

/-- C9: for every prior fader value, muting forces the fader gain to 0, and
a subsequent unmute sets it to the fixed reference level 0.8 rather than
restoring the value held before muting. -/
theorem setMute_fixed_restore (t : Track) :
    (setMute true t).channelFader = 0 ∧
    (setMute true t).isMuted = true ∧
    (setMute false (setMute true t)).channelFader = 8/10 ∧
    (setMute false (setMute true t)).isMuted = false ∧
    (setMute false t).channelFader = 8/10 :=
  ⟨rfl, rfl, rfl, rfl, rfl⟩

/-- Playback-speed state of a track: the playback rate magnitude and the
reverse flag, as mutated by Track.setSpeed. -/
structure SpeedState where
  playbackRate : ℝ
  isReversed : Bool

/-- Track.setSpeed: bipolar control in -100..100. Zero resets to rate 1
forward; positive values map to rate 4 to the power v over 100, forward;
negative values map likewise through the absolute value, reverse. -/
noncomputable def setSpeed (normalizedValue : ℚ) (s : SpeedState) : SpeedState :=
  if normalizedValue = 0 then
    { playbackRate := 1, isReversed := false }
  else if 0 < normalizedValue then
    { playbackRate := (4 : ℝ) ^ (((normalizedValue / 100 : ℚ) : ℝ)), isReversed := false }
  else
    { playbackRate := (4 : ℝ) ^ (((|normalizedValue| / 100 : ℚ) : ℝ)), isReversed := true }

/-- C2: setSpeed 0 yields rate exactly 1 forward regardless of prior state;
for v in (0, 100], setSpeed v yields rate 4 ^ (v/100) forward and
setSpeed (-v) the same magnitude in reverse; setSpeed 100 and setSpeed -100
both yield rate 4, forward and reverse respectively. -/
theorem setSpeed_spec (s : SpeedState) (v : ℚ) (hv0 : 0 < v) (hv1 : v ≤ 100) :
    (setSpeed 0 s).playbackRate = 1 ∧
    (setSpeed 0 s).isReversed = false ∧
    (setSpeed v s).playbackRate = (4 : ℝ) ^ ((v : ℝ) / 100) ∧
    (setSpeed v s).isReversed = false ∧
    (setSpeed (-v) s).playbackRate = (4 : ℝ) ^ ((v : ℝ) / 100) ∧
    (setSpeed (-v) s).isReversed = true ∧
    (setSpeed 100 s).playbackRate = 4 ∧
    (setSpeed 100 s).isReversed = false ∧
    (setSpeed (-100) s).playbackRate = 4 ∧
    (setSpeed (-100) s).isReversed = true ∧
    (setSpeed v s).playbackRate = (setSpeed (-v) s).playbackRate ∧
    (setSpeed (-v) s).isReversed = !(setSpeed v s).isReversed := by
  have hvne : v ≠ 0 := ne_of_gt hv0
  have hvneg : (-v : ℚ) ≠ 0 := by simpa using hvne
  have hneg : ¬ (0 : ℚ) < -v := by simpa using le_of_lt hv0
  have habs : |(-v)| = v := by simp [abs_of_pos hv0]
  have hpos : (setSpeed v s) =
      { playbackRate := (4 : ℝ) ^ (((v / 100 : ℚ) : ℝ)), isReversed := false } := by
    rw [setSpeed, if_neg hvne, if_pos hv0]
  have hrev : (setSpeed (-v) s) =
      { playbackRate := (4 : ℝ) ^ (((v / 100 : ℚ) : ℝ)), isReversed := true } := by
    rw [setSpeed, if_neg hvneg, if_neg hneg, habs]
  have hcast : (((v / 100 : ℚ)) : ℝ) = (v : ℝ) / 100 := by push_cast; ring
  have hs100 : (setSpeed 100 s) =
      { playbackRate := (4 : ℝ) ^ (((100 / 100 : ℚ) : ℝ)), isReversed := false } := by
    rw [setSpeed, if_neg (by norm_num : (100 : ℚ) ≠ 0), if_pos (by norm_num : (0 : ℚ) < 100)]
  have hsm100 : (setSpeed (-100) s) =
      { playbackRate := (4 : ℝ) ^ ((|(-100 : ℚ)| / 100 : ℚ) : ℝ), isReversed := true } := by
    rw [setSpeed, if_neg (by norm_num : (-100 : ℚ) ≠ 0),
      if_neg (by norm_num : ¬ (0 : ℚ) < -100)]
  have hc100 : (((100 / 100 : ℚ)) : ℝ) = 1 := by norm_num
  have hcm100 : ((|(-100 : ℚ)| / 100 : ℚ) : ℝ) = 1 := by norm_num
  refine ⟨rfl, rfl, ?_, ?_, ?_, ?_, ?_, ?_, ?_, ?_, ?_, ?_⟩
  · rw [hpos, hcast]
  · rw [hpos]
  · rw [hrev, hcast]
  · rw [hrev]
  · rw [hs100, hc100]
    exact Real.rpow_one 4
  · rw [hs100]
  · rw [hsm100, hcm100]
    exact Real.rpow_one 4
  · rw [hsm100]
  · rw [hpos, hrev]
  · rw [hpos, hrev]
    rfl

/-- Witness for C2 at speed value 50 from a prior state of rate 1 forward. -/
theorem setSpeed_spec_witness :
    (0 : ℚ) < 50 ∧ (50 : ℚ) ≤ 100 ∧
    ((setSpeed 0 ⟨1, false⟩).playbackRate = 1 ∧
     (setSpeed 0 ⟨1, false⟩).isReversed = false ∧
     (setSpeed 50 ⟨1, false⟩).playbackRate = (4 : ℝ) ^ (((50 : ℚ) : ℝ) / 100) ∧
     (setSpeed 50 ⟨1, false⟩).isReversed = false ∧
     (setSpeed (-50) ⟨1, false⟩).playbackRate = (4 : ℝ) ^ (((50 : ℚ) : ℝ) / 100) ∧
     (setSpeed (-50) ⟨1, false⟩).isReversed = true ∧
     (setSpeed 100 ⟨1, false⟩).playbackRate = 4 ∧
     (setSpeed 100 ⟨1, false⟩).isReversed = false ∧
     (setSpeed (-100) ⟨1, false⟩).playbackRate = 4 ∧
     (setSpeed (-100) ⟨1, false⟩).isReversed = true ∧
     (setSpeed 50 ⟨1, false⟩).playbackRate = (setSpeed (-50) ⟨1, false⟩).playbackRate ∧
     (setSpeed (-50) ⟨1, false⟩).isReversed = !(setSpeed 50 ⟨1, false⟩).isReversed) :=
  ⟨by norm_num, by norm_num, setSpeed_spec ⟨1, false⟩ 50 (by norm_num) (by norm_num)⟩

/-- Compressor parameter state mutated by the peak-reduction setters. -/
structure CompressorState where
  threshold : ℚ
  ratio : ℚ

/-- Makeup-gain state mutated by the LA-2A gain setters. -/
structure MakeupGainState where
  gain : ℝ

/-- Track.setLA2APeakReduction: threshold -10 - amount * 30 dB and ratio
3 + amount * 5. -/
def setLA2APeakReduction (amount : ℚ) (c : CompressorState) : CompressorState :=
  { threshold := -10 - amount * 30, ratio := 3 + amount * 5 }

/-- Recorder.setMasterLA2APeakReduction: same mapping on the master bus
compressor. -/
def setMasterLA2APeakReduction (amount : ℚ) (c : CompressorState) : CompressorState :=
  { threshold := -10 - amount * 30, ratio := 3 + amount * 5 }

/-- Track.setLA2AGain: gain in dB is amount * 20, converted to linear as 10
to the power of the dB value over 20. -/
noncomputable def setLA2AGain (amount : ℚ) (g : MakeupGainState) : MakeupGainState :=
  { gain := (10 : ℝ) ^ ((((amount * 20 : ℚ)) : ℝ) / 20) }

/-- Recorder.setMasterLA2AGain: same mapping on the master makeup gain. -/
noncomputable def setMasterLA2AGain (amount : ℚ) (g : MakeupGainState) : MakeupGainState :=
  { gain := (10 : ℝ) ^ ((((amount * 20 : ℚ)) : ℝ) / 20) }

/-- C6: for amount in [0, 1] the peak-reduction setters on both track and
master set threshold -10 - 30a dB and ratio 3 + 5a, and the makeup-gain
setters set linear gain 10 ^ a; at the endpoints this gives threshold -10
and ratio 3, threshold -40 and ratio 8, gain 1 and gain 10. -/
theorem la2a_mapping (amount : ℚ) (c : CompressorState) (g : MakeupGainState)
    (h0 : 0 ≤ amount) (h1 : amount ≤ 1) :
    (setLA2APeakReduction amount c).threshold = -10 - 30 * amount ∧
    (setLA2APeakReduction amount c).ratio = 3 + 5 * amount ∧
    (setMasterLA2APeakReduction amount c).threshold = -10 - 30 * amount ∧
    (setMasterLA2APeakReduction amount c).ratio = 3 + 5 * amount ∧
    (setLA2AGain amount g).gain = (10 : ℝ) ^ ((amount : ℝ)) ∧
    (setMasterLA2AGain amount g).gain = (10 : ℝ) ^ ((amount : ℝ)) ∧
    (setLA2APeakReduction 0 c).threshold = -10 ∧
    (setLA2APeakReduction 0 c).ratio = 3 ∧
    (setLA2APeakReduction 1 c).threshold = -40 ∧
    (setLA2APeakReduction 1 c).ratio = 8 ∧
    (setLA2AGain 0 g).gain = 1 ∧
    (setLA2AGain 1 g).gain = 10 := by
  have hexp : ∀ a : ℚ, (((a * 20 : ℚ)) : ℝ) / 20 = (a : ℝ) := by
    intro a; push_cast; ring
  refine ⟨by simp [setLA2APeakReduction]; ring, by simp [setLA2APeakReduction]; ring,
    by simp [setMasterLA2APeakReduction]; ring, by simp [setMasterLA2APeakReduction]; ring,
    ?_, ?_, ?_, ?_, ?_, ?_, ?_, ?_⟩
  · simp [setLA2AGain, hexp 0, hexp amount]
  · simp [setMasterLA2AGain, hexp 0, hexp amount]
  · norm_num [setLA2APeakReduction]
  · norm_num [setLA2APeakReduction]
  · norm_num [setLA2APeakReduction]
  · norm_num [setLA2APeakReduction]
  · rw [setLA2AGain]
    simp [hexp 0]
  · rw [setLA2AGain]
    simp [hexp 1]

/-- Witness for C6 at amount one half. -/
theorem la2a_mapping_witness :
    (0 : ℚ) ≤ 1/2 ∧ (1/2 : ℚ) ≤ 1 ∧
    ((setLA2APeakReduction (1/2) ⟨-24, 4⟩).threshold = -10 - 30 * (1/2) ∧
     (setLA2APeakReduction (1/2) ⟨-24, 4⟩).ratio = 3 + 5 * (1/2) ∧
     (setMasterLA2APeakReduction (1/2) ⟨-24, 4⟩).threshold = -10 - 30 * (1/2) ∧
     (setMasterLA2APeakReduction (1/2) ⟨-24, 4⟩).ratio = 3 + 5 * (1/2) ∧
     (setLA2AGain (1/2) ⟨1⟩).gain = (10 : ℝ) ^ (((1/2 : ℚ) : ℝ)) ∧
     (setMasterLA2AGain (1/2) ⟨1⟩).gain = (10 : ℝ) ^ (((1/2 : ℚ) : ℝ)) ∧
     (setLA2APeakReduction 0 ⟨-24, 4⟩).threshold = -10 ∧
     (setLA2APeakReduction 0 ⟨-24, 4⟩).ratio = 3 ∧
     (setLA2APeakReduction 1 ⟨-24, 4⟩).threshold = -40 ∧
     (setLA2APeakReduction 1 ⟨-24, 4⟩).ratio = 8 ∧
     (setLA2AGain 0 ⟨1⟩).gain = 1 ∧
     (setLA2AGain 1 ⟨1⟩).gain = 10) :=
  ⟨by norm_num, by norm_num,
    la2a_mapping (1/2) ⟨-24, 4⟩ ⟨1⟩ (by norm_num) (by norm_num)⟩

/-- Insertion-ordered map modelling the JS Map that holds the reverb
impulse cache: key-value pairs in insertion order. Map.set updates an
existing key in place, keeping its position, or appends a new entry. -/
def mapSet (m : List (ℕ × ℕ)) (k v : ℕ) : List (ℕ × ℕ) :=
  if m.any (fun p => p.1 == k) then
    m.map (fun p => if p.1 == k then (k, v) else p)
  else m ++ [(k, v)]

/-- Map.delete of a key: remove the entries with that key. -/
def mapDelete (m : List (ℕ × ℕ)) (k : ℕ) : List (ℕ × ℕ) :=
  m.filter (fun p => p.1 != k)

/-- First key of the map in insertion order (Map.keys().next().value). -/
def firstKey (m : List (ℕ × ℕ)) : Option ℕ := m.head?.map Prod.fst

/-- Worker-response handler of Recorder.createMasterBus for the impulse
cache: set the entry under its key, then if the size exceeds 5 delete the
first (oldest-inserted) key. -/
def cacheStep (m : List (ℕ × ℕ)) (kv : ℕ × ℕ) : List (ℕ × ℕ) :=
  if 5 < (mapSet m kv.1 kv.2).length then
    match firstKey (mapSet m kv.1 kv.2) with
    | some k => mapDelete (mapSet m kv.1 kv.2) k
    | none => mapSet m kv.1 kv.2
  else mapSet m kv.1 kv.2

theorem length_mapSet_le (m : List (ℕ × ℕ)) (k v : ℕ) :
    (mapSet m k v).length ≤ m.length + 1 := by
  unfold mapSet
  split
  · simp
  · simp

theorem keys_mapSet_of_mem (m : List (ℕ × ℕ)) (k v : ℕ)
    (h : m.any (fun p => p.1 == k) = true) :
    (mapSet m k v).map Prod.fst = m.map Prod.fst := by
  unfold mapSet
  rw [if_pos h, List.map_map]
  refine List.map_congr_left ?_
  intro p _
  by_cases hp : p.1 = k
  · simp [hp]
  · simp [hp]

theorem keysNodup_mapSet (m : List (ℕ × ℕ)) (k v : ℕ)
    (h : (m.map Prod.fst).Nodup) : ((mapSet m k v).map Prod.fst).Nodup := by
  by_cases hmem : m.any (fun p => p.1 == k) = true
  · rw [keys_mapSet_of_mem m k v hmem]
    exact h
  · have hnot : ∀ p ∈ m, p.1 ≠ k := by
      intro p hp
      have := List.any_eq_false.mp (Bool.eq_false_iff.mpr hmem) p hp
      simpa using this
    unfold mapSet
    rw [if_neg hmem]
    rw [List.map_append]
    simp only [List.map_cons, List.map_nil]
    rw [List.nodup_append]
    refine ⟨h, List.nodup_singleton k, ?_⟩
    intro a ha
    simp only [List.mem_singleton]
    intro hak
    obtain ⟨p, hp, hpa⟩ := List.mem_map.mp ha
    exact hnot p hp (hpa.trans hak)

theorem mapDelete_head (p : ℕ × ℕ) (tl : List (ℕ × ℕ))
    (h : ((p :: tl).map Prod.fst).Nodup) :
    mapDelete (p :: tl) p.1 = tl := by
  have h1 : (p.1 :: tl.map Prod.fst).Nodup := by
    rw [← List.map_cons]
    exact h
  have hnotin : p.1 ∉ tl.map Prod.fst := (List.nodup_cons.mp h1).1
  unfold mapDelete
  rw [List.filter_cons]
  have hself : (p.1 != p.1) = false := by simp
  rw [hself]
  simp only [Bool.false_eq_true, if_false]
  refine List.filter_eq_self.mpr ?_
  intro q hq
  have hne : q.1 ≠ p.1 := by
    intro he
    exact hnotin (List.mem_map.mpr ⟨q, hq, he⟩)
  simpa using hne

theorem cacheStep_evict_eq (m : List (ℕ × ℕ)) (kv : ℕ × ℕ) (p : ℕ × ℕ)
    (tl : List (ℕ × ℕ)) (he : mapSet m kv.1 kv.2 = p :: tl)
    (hnd2 : ((mapSet m kv.1 kv.2).map Prod.fst).Nodup)
    (hgt : 5 < (mapSet m kv.1 kv.2).length) :
    cacheStep m kv = tl := by
  have hfk : firstKey (mapSet m kv.1 kv.2) = some p.1 := by
    rw [he]; rfl
  have hnd' : ((p :: tl).map Prod.fst).Nodup := by
    rw [← he]; exact hnd2
  unfold cacheStep
  rw [if_pos hgt, hfk]
  show mapDelete (mapSet m kv.1 kv.2) p.1 = tl
  rw [he]
  exact mapDelete_head p tl hnd'

theorem cacheStep_keep_eq (m : List (ℕ × ℕ)) (kv : ℕ × ℕ)
    (hle : ¬ 5 < (mapSet m kv.1 kv.2).length) :
    cacheStep m kv = mapSet m kv.1 kv.2 := by
  unfold cacheStep
  rw [if_neg hle]

theorem cacheStep_bound (m : List (ℕ × ℕ)) (kv : ℕ × ℕ)
    (hnd : (m.map Prod.fst).Nodup) (hlen : m.length ≤ 5) :
    ((cacheStep m kv).map Prod.fst).Nodup ∧ (cacheStep m kv).length ≤ 5 := by
  have hnd2 : ((mapSet m kv.1 kv.2).map Prod.fst).Nodup := keysNodup_mapSet m kv.1 kv.2 hnd
  have hlen2 : (mapSet m kv.1 kv.2).length ≤ m.length + 1 := length_mapSet_le m kv.1 kv.2
  by_cases hgt : 5 < (mapSet m kv.1 kv.2).length
  · obtain ⟨p, tl, he⟩ : ∃ p tl, mapSet m kv.1 kv.2 = p :: tl := by
      cases hm : mapSet m kv.1 kv.2 with
      | nil => rw [hm] at hgt; simp at hgt
      | cons p tl => exact ⟨p, tl, rfl⟩
    rw [cacheStep_evict_eq m kv p tl he hnd2 hgt]
    constructor
    · have h2 := hnd2
      rw [he, List.map_cons] at h2
      exact (List.nodup_cons.mp h2).2
    · have : (mapSet m kv.1 kv.2).length = tl.length + 1 := by rw [he]; simp
      omega
  · rw [cacheStep_keep_eq m kv hgt]
    exact ⟨hnd2, by omega⟩

theorem cache_foldl_invariant (ops : List (ℕ × ℕ)) :
    ∀ m : List (ℕ × ℕ), (m.map Prod.fst).Nodup → m.length ≤ 5 →
      (((ops.foldl cacheStep m).map Prod.fst).Nodup ∧
        (ops.foldl cacheStep m).length ≤ 5) := by
  induction ops with
  | nil => intro m hnd hlen; exact ⟨hnd, hlen⟩
  | cons kv rest ih =>
    intro m hnd hlen
    have hstep := cacheStep_bound m kv hnd hlen
    exact ih (cacheStep m kv) hstep.1 hstep.2

/-- C7: starting from the empty cache, every sequence of worker-response
insertions leaves at most 5 entries, and when an insertion would exceed
capacity 5 the handler removes exactly the first, oldest-inserted entry,
which for a fresh key is the head of the pre-insertion cache. -/
theorem reverbCache_spec (ops : List (ℕ × ℕ)) (m : List (ℕ × ℕ)) (k v : ℕ)
    (hnd : (m.map Prod.fst).Nodup) (hlen : m.length ≤ 5)
    (hgt : 5 < (mapSet m k v).length) :
    (ops.foldl cacheStep []).length ≤ 5 ∧
    cacheStep m (k, v) = (mapSet m k v).drop 1 ∧
    (mapSet m k v).head? = m.head? := by
  have hfold := cache_foldl_invariant ops [] (by simp) (by simp)
  have happend : mapSet m k v = m ++ [(k, v)] := by
    by_cases hmem : m.any (fun p => p.1 == k) = true
    · exfalso
      have := keys_mapSet_of_mem m k v hmem
      have hl : (mapSet m k v).length = m.length := by
        have h1 : ((mapSet m k v).map Prod.fst).length = ((m.map Prod.fst)).length := by
          rw [this]
        simpa using h1
      omega
    · unfold mapSet
      rw [if_neg hmem]
  refine ⟨hfold.2, ?_, ?_⟩
  · have hnd2 : ((mapSet m k v).map Prod.fst).Nodup := keysNodup_mapSet m k v hnd
    obtain ⟨p, tl, he⟩ : ∃ p tl, mapSet m k v = p :: tl := by
      cases hm : mapSet m k v with
      | nil => rw [hm] at hgt; simp at hgt
      | cons p tl => exact ⟨p, tl, rfl⟩
    rw [cacheStep_evict_eq m (k, v) p tl he hnd2 hgt, he]
    rfl
  · have hm_ne : m ≠ [] := by
      intro hnil
      subst hnil
      rw [happend] at hgt
      simp at hgt
    rw [happend]
    cases m with
    | nil => exact absurd rfl hm_ne
    | cons q qs => rfl

/-- Witness for C7: a full 5-entry cache evicts its oldest entry when a
sixth key arrives. -/
theorem reverbCache_spec_witness :
    (([(0, 10), (1, 11), (2, 12), (3, 13), (4, 14)].map
        (Prod.fst (α := ℕ) (β := ℕ))).Nodup ∧
      [(0, 10), (1, 11), (2, 12), (3, 13), (4, 14)].length ≤ 5 ∧
      5 < (mapSet [(0, 10), (1, 11), (2, 12), (3, 13), (4, 14)] 9 19).length) ∧
    (([((0 : ℕ), (10 : ℕ))], (9 : ℕ), (19 : ℕ))).1.length ≤ 5 ∧
    (([(0, 10), (1, 11), (2, 12), (3, 13), (4, 14)] :
        List (ℕ × ℕ)).foldl cacheStep []).length ≤ 5 ∧
    cacheStep [(0, 10), (1, 11), (2, 12), (3, 13), (4, 14)] (9, 19) =
      (mapSet [(0, 10), (1, 11), (2, 12), (3, 13), (4, 14)] 9 19).drop 1 ∧
    (mapSet [(0, 10), (1, 11), (2, 12), (3, 13), (4, 14)] 9 19).head? =
      ([(0, 10), (1, 11), (2, 12), (3, 13), (4, 14)] : List (ℕ × ℕ)).head? := by
  refine ⟨⟨by decide, by decide, by decide⟩, by decide, ?_⟩
  exact reverbCache_spec [(0, 10), (1, 11), (2, 12), (3, 13), (4, 14)]
    [(0, 10), (1, 11), (2, 12), (3, 13), (4, 14)] 9 19
    (by decide) (by decide) (by decide)

/-- Cassette tape bus state relevant to dropout scheduling: the stored
normalized intensity, whether a dropout timer is pending, and bypass. -/
structure TapeBusState where
  dropoutIntensity : ℚ
  schedulerPending : Bool
  bypassed : Bool

/-- Interval draw of CassetteTapeBus.scheduleDropout: 15000 minus 12000
times the normalized intensity, plus a random value in [0, 1) scaled by
5000. -/
def scheduleInterval (intensity r : ℚ) : ℚ :=
  (15000 - intensity * 12000) + r * 5000

/-- CassetteTapeBus.setDropouts: store value / 100, cancel any pending
timer, and schedule anew exactly when the stored intensity is positive and
the bus is not bypassed (the guard at the top of scheduleDropout). -/
def setDropouts (value : ℚ) (s : TapeBusState) : TapeBusState :=
  if 0 < value / 100 ∧ ¬ s.bypassed then
    { s with dropoutIntensity := value / 100, schedulerPending := true }
  else
    { s with dropoutIntensity := value / 100, schedulerPending := false }

/-- Gap sequence of the recurring dropout schedule: the nth gap is drawn
with the nth value of the random stream, or none when the guard of
scheduleDropout stops the recurrence. -/
def dropoutGaps (s : TapeBusState) (rs : ℕ → ℚ) (n : ℕ) : Option ℚ :=
  if 0 < s.dropoutIntensity ∧ ¬ s.bypassed then
    some (scheduleInterval s.dropoutIntensity (rs n))
  else none

/-- C8: setDropouts 0 cancels the pending schedule and no dropout gap is
ever drawn; setDropouts 100 on a non-bypassed bus draws every gap as
baseInterval plus uniform [0, 5000) with baseInterval 15000 - 120 * 100,
so every gap lies in [3000, 8000). -/
theorem dropout_schedule_spec (s : TapeBusState) (rs : ℕ → ℚ)
    (hr : ∀ n, 0 ≤ rs n ∧ rs n < 1) :
    (setDropouts 0 s).schedulerPending = false ∧
    (∀ n, dropoutGaps (setDropouts 0 s) rs n = none) ∧
    (s.bypassed = false → (setDropouts 100 s).schedulerPending = true) ∧
    (∀ n, s.bypassed = false →
      ∃ g, dropoutGaps (setDropouts 100 s) rs n = some g ∧
        g = (15000 - 120 * 100) + rs n * 5000 ∧
        3000 ≤ g ∧ g < 8000) := by
  have hz : ¬ ((0 : ℚ) < 0 / 100 ∧ ¬ s.bypassed) := by
    intro h
    exact absurd h.1 (by norm_num)
  have hsd0 : setDropouts 0 s =
      { s with dropoutIntensity := 0 / 100, schedulerPending := false } := by
    rw [setDropouts, if_neg hz]
  refine ⟨by rw [hsd0], ?_, ?_, ?_⟩
  · intro n
    rw [dropoutGaps]
    rw [if_neg ?_]
    rw [hsd0]
    simp
  · intro hb
    rw [setDropouts, if_pos (⟨by norm_num, by simp [hb]⟩)]
  · intro n hb
    have hsd100 : setDropouts 100 s =
        { s with dropoutIntensity := 100 / 100, schedulerPending := true } := by
      rw [setDropouts, if_pos (⟨by norm_num, by simp [hb]⟩)]
    refine ⟨scheduleInterval (100 / 100) (rs n), ?_, ?_, ?_, ?_⟩
    · rw [dropoutGaps, hsd100, if_pos (⟨by norm_num, by simp [hb]⟩)]
    · rw [scheduleInterval]
      norm_num
    · rw [scheduleInterval]
      have := (hr n).1
      nlinarith
    · rw [scheduleInterval]
      have := (hr n).2
      nlinarith

/-- Witness for C8 with a constant random stream of one half. -/
theorem dropout_schedule_spec_witness :
    ((∀ n : ℕ, (0 : ℚ) ≤ (fun _ : ℕ => (1 / 2 : ℚ)) n ∧
        (fun _ : ℕ => (1 / 2 : ℚ)) n < 1) ∧
      (TapeBusState.mk 0 true false).bypassed = false) ∧
    (setDropouts 0 (TapeBusState.mk 0 true false)).schedulerPending = false ∧
    (∀ n, dropoutGaps (setDropouts 0 (TapeBusState.mk 0 true false))
        (fun _ => (1 / 2 : ℚ)) n = none) ∧
    ((TapeBusState.mk 0 true false).bypassed = false →
      (setDropouts 100 (TapeBusState.mk 0 true false)).schedulerPending = true) ∧
    (∀ n, (TapeBusState.mk 0 true false).bypassed = false →
      ∃ g, dropoutGaps (setDropouts 100 (TapeBusState.mk 0 true false))
          (fun _ => (1 / 2 : ℚ)) n = some g ∧
        g = (15000 - 120 * 100) + (fun _ : ℕ => (1 / 2 : ℚ)) n * 5000 ∧
        3000 ≤ g ∧ g < 8000) :=
  ⟨⟨fun _ => ⟨by norm_num, by norm_num⟩, rfl⟩,
    dropout_schedule_spec (TapeBusState.mk 0 true false)
      (fun _ => (1 / 2 : ℚ)) (fun _ => ⟨by norm_num, by norm_num⟩)⟩

/-- Recorder.handleSolo on the fixed pool of four tracks: toggle the solo
flag of the chosen track; if any track is then solo, call setMute true on
every non-solo track; otherwise re-apply each track's own isMuted flag
through setMute. -/
def handleSolo (tracks : Fin 4 → Track) (n : Fin 4) : Fin 4 → Track :=
  let ts1 : Fin 4 → Track := fun i =>
    if i = n then setSolo (!(tracks n).isSolo) (tracks n) else tracks i
  if ∃ i, (ts1 i).isSolo = true then
    fun i => if !(ts1 i).isSolo then setMute true (ts1 i) else ts1 i
  else
    fun i => setMute (ts1 i).isMuted (ts1 i)

/-- C10: engaging solo on track n mutes every other track by overwriting
its isMuted flag, and clearing the solo re-applies that overwritten flag,
so every track that was non-solo during the solo period stays muted with
fader 0 even if it was unmuted before the solo was engaged. -/
theorem handleSolo_sticky_mute (tracks : Fin 4 → Track) (n j : Fin 4)
    (hjn : j ≠ n) (hnosolo : ∀ i, (tracks i).isSolo = false) :
    ((handleSolo tracks n) j).isMuted = true ∧
    ((handleSolo tracks n) j).channelFader = 0 ∧
    ((handleSolo (handleSolo tracks n) n) j).isMuted = true ∧
    ((handleSolo (handleSolo tracks n) n) j).channelFader = 0 := by
  have h1 : handleSolo tracks n = fun i =>
      if i = n then setSolo true (tracks n)
      else setMute true (tracks i) := by
    rw [handleSolo]
    have hts1 : (fun i =>
        if i = n then setSolo (!(tracks n).isSolo) (tracks n) else tracks i) =
        fun i => if i = n then setSolo true (tracks n) else tracks i := by
      funext i
      rw [hnosolo n]
      rfl
    rw [hts1]
    rw [if_pos ⟨n, by simp [setSolo]⟩]
    funext i
    by_cases hi : i = n
    · simp [hi, setSolo, hnosolo n]
    · simp [hi, hnosolo i, setMute]
  have hj1 : (handleSolo tracks n) j = setMute true (tracks j) := by
    rw [h1]
    simp [hjn]
  have h2 : handleSolo (handleSolo tracks n) n = fun i =>
      setMute ((if i = n then setSolo false (setSolo true (tracks n))
        else setMute true (tracks i)).isMuted)
        (if i = n then setSolo false (setSolo true (tracks n))
          else setMute true (tracks i)) := by
    rw [handleSolo]
    have hsn : (handleSolo tracks n) n = setSolo true (tracks n) := by
      rw [h1]
      simp
    have hts1 : (fun i =>
        if i = n then setSolo (!((handleSolo tracks n) n).isSolo)
          ((handleSolo tracks n) n)
        else (handleSolo tracks n) i) =
        fun i => if i = n then setSolo false (setSolo true (tracks n))
          else setMute true (tracks i) := by
      funext i
      by_cases hi : i = n
      · rw [hi, if_pos rfl, if_pos rfl, hsn]
        rfl
      · rw [if_neg hi, if_neg hi, h1]
        simp [hi]
    rw [hts1]
    rw [if_neg ?_]
    intro hex
    obtain ⟨i, hi⟩ := hex
    simp only at hi
    by_cases hin : i = n
    · rw [if_pos hin] at hi
      simp [setSolo] at hi
    · rw [if_neg hin] at hi
      rw [show (setMute true (tracks i)).isSolo = (tracks i).isSolo from rfl,
        hnosolo i] at hi
      exact Bool.false_ne_true hi
  refine ⟨?_, ?_, ?_, ?_⟩
  · rw [hj1]; rfl
  · rw [hj1]; rfl
  · rw [h2]
    simp only [if_neg hjn]
    rfl
  · rw [h2]
    simp only [if_neg hjn]
    rfl

/-- Witness for C10: a concrete pool where track 1 is unmuted before the
solo on track 0 and stays muted after the solo is cleared. -/
theorem handleSolo_sticky_mute_witness :
    ((1 : Fin 4) ≠ (0 : Fin 4) ∧
      ∀ i : Fin 4,
        ((fun _ : Fin 4 =>
          Track.mk none none false false false false (8/10) 4) i).isSolo = false) ∧
    ((handleSolo (fun _ => Track.mk none none false false false false (8/10) 4) 0) 1).isMuted = true ∧
    ((handleSolo (fun _ => Track.mk none none false false false false (8/10) 4) 0) 1).channelFader = 0 ∧
    ((handleSolo (handleSolo (fun _ => Track.mk none none false false false false (8/10) 4) 0) 0) 1).isMuted = true ∧
    ((handleSolo (handleSolo (fun _ => Track.mk none none false false false false (8/10) 4) 0) 0) 1).channelFader = 0 :=
  ⟨⟨by decide, fun _ => rfl⟩,
    handleSolo_sticky_mute
      (fun _ => Track.mk none none false false false false (8/10) 4) 0 1
      (by decide) (fun _ => rfl)⟩

/-- Little-endian byte pair of a 16-bit unsigned value, as written by
DataView.setUint16 with littleEndian true. -/
def u16le (x : ℕ) : List ℕ := [x % 256, x / 256 % 256]

/-- Little-endian byte quadruple of a 32-bit unsigned value, as written by
DataView.setUint32 with littleEndian true. -/
def u32le (x : ℕ) : List ℕ :=
  [x % 256, x / 256 % 256, x / 65536 % 256, x / 16777216 % 256]

/-- Two's-complement 16-bit wrap of an integer, the ToInt16 step of
DataView.setInt16. -/
def toUint16 (x : ℤ) : ℕ := (x % 65536).toNat

/-- Little-endian bytes of a signed 16-bit write. -/
def i16le (x : ℤ) : List ℕ := u16le (toUint16 x)

/-- Truncation toward zero of a rational, the ToIntegerOrInfinity step
applied by DataView.setInt16 to a non-integral number. -/
def jsTrunc (q : ℚ) : ℤ := if 0 ≤ q then ⌊q⌋ else -⌊-q⌋

/-- Sample conversion of Recorder.bufferToWav: clamp to [-1, 1], scale by
0x7FFF and write as a signed 16-bit value. -/
def sampleToInt16 (s : ℚ) : ℤ := jsTrunc (max (-1) (min 1 s) * 32767)

/-- ASCII bytes of RIFF. -/
def riffTag : List ℕ := [82, 73, 70, 70]

/-- ASCII bytes of WAVE. -/
def waveTag : List ℕ := [87, 65, 86, 69]

/-- ASCII bytes of fmt followed by a space. -/
def fmtTag : List ℕ := [102, 109, 116, 32]

/-- ASCII bytes of data. -/
def dataTag : List ℕ := [100, 97, 116, 97]

/-- Interleaved 16-bit PCM body of the WAV file: for each frame, for each
channel, the two little-endian bytes of the converted sample. -/
def wavData (b : AudioBuffer) : List ℕ :=
  (List.range b.len).flatMap (fun i =>
    (List.range b.numberOfChannels).flatMap (fun channel =>
      i16le (sampleToInt16 ((getChannelData b channel).getD i 0))))

/-- Recorder.bufferToWav: the 44-byte RIFF/WAVE header followed by the
interleaved 16-bit PCM data. -/
def bufferToWav (b : AudioBuffer) : List ℕ :=
  riffTag ++ u32le (36 + b.len * b.numberOfChannels * 2) ++ waveTag ++ fmtTag ++
  u32le 16 ++ u16le 1 ++ u16le b.numberOfChannels ++ u32le b.sampleRate ++
  u32le (b.sampleRate * b.numberOfChannels * 2) ++ u16le (b.numberOfChannels * 2) ++
  u16le 16 ++ dataTag ++ u32le (b.len * b.numberOfChannels * 2) ++ wavData b

theorem length_flatMap_const {α : Type} (f : ℕ → List α) (k m : ℕ)
    (hk : ∀ i, (f i).length = k) : ((List.range m).flatMap f).length = m * k := by
  rw [List.length_flatMap]
  have h1 : List.map (List.length ∘ f) (List.range m) =
      List.map (Function.const ℕ k) (List.range m) := by
    refine List.map_congr_left ?_
    intro a _
    exact hk a
  rw [h1, List.map_const, List.length_range, List.sum_replicate, smul_eq_mul]

theorem flatMap_range_drop {α : Type} :
    ∀ (j k : ℕ) (g : ℕ → List α), (∀ i, (g i).length = k) → ∀ (m : ℕ), j < m →
      ∃ rest, ((List.range m).flatMap g).drop (j * k) = g j ++ rest := by
  intro j
  induction j with
  | zero =>
    intro k g hg m hm
    cases m with
    | zero => omega
    | succ m =>
      rw [List.range_succ_eq_map, List.flatMap_cons]
      exact ⟨(List.map Nat.succ (List.range m)).flatMap g, by simp⟩
  | succ j ih =>
    intro k g hg m hm
    cases m with
    | zero => omega
    | succ m =>
      rw [List.range_succ_eq_map, List.flatMap_cons, List.flatMap_map]
      have harith : (j + 1) * k = (g 0).length + j * k := by
        rw [hg 0]; ring
      rw [harith, ← List.drop_drop, List.drop_left]
      exact ih k (fun t => g (t + 1)) (fun t => hg (t + 1)) m (by omega)

theorem flatMap_range_extract {α : Type} (g : ℕ → List α) (k : ℕ)
    (hg : ∀ i, (g i).length = k) (j m r t : ℕ) (hj : j < m) (hrt : r + t ≤ k) :
    (((List.range m).flatMap g).drop (j * k + r)).take t = ((g j).drop r).take t := by
  obtain ⟨rest, hrest⟩ := flatMap_range_drop j k g hg m hj
  rw [← List.drop_drop, hrest, List.drop_append_eq_append_drop]
  have hr0 : r - (g j).length = 0 := by rw [hg j]; omega
  rw [hr0, List.drop_zero, List.take_append_eq_append_take]
  have ht0 : t - ((g j).drop r).length = 0 := by
    rw [List.length_drop, hg j]; omega
  rw [ht0, List.take_zero, List.append_nil]

theorem wavData_length (b : AudioBuffer) :
    (wavData b).length = b.len * b.numberOfChannels * 2 := by
  have hin : ∀ i, ((List.range b.numberOfChannels).flatMap (fun channel =>
      i16le (sampleToInt16 ((getChannelData b channel).getD i 0)))).length =
      b.numberOfChannels * 2 :=
    fun i => length_flatMap_const _ 2 b.numberOfChannels (fun _ => rfl)
  rw [wavData, length_flatMap_const _ (b.numberOfChannels * 2) b.len hin]
  ring

theorem wavData_bytes (b : AudioBuffer) (i c : ℕ) (hi : i < b.len)
    (hc : c < b.numberOfChannels) :
    ((wavData b).drop ((i * b.numberOfChannels + c) * 2)).take 2 =
      i16le (sampleToInt16 ((getChannelData b c).getD i 0)) := by
  have hin : ∀ t, ((List.range b.numberOfChannels).flatMap (fun channel =>
      i16le (sampleToInt16 ((getChannelData b channel).getD t 0)))).length =
      b.numberOfChannels * 2 :=
    fun t => length_flatMap_const _ 2 b.numberOfChannels (fun _ => rfl)
  have harith : (i * b.numberOfChannels + c) * 2 =
      i * (b.numberOfChannels * 2) + c * 2 := by ring
  rw [wavData, harith,
    flatMap_range_extract _ (b.numberOfChannels * 2) hin i b.len (c * 2) 2 hi (by omega)]
  have h2 := flatMap_range_extract
    (fun channel => i16le (sampleToInt16 ((getChannelData b channel).getD i 0))) 2
    (fun _ => rfl) c b.numberOfChannels 0 2 hc (by omega)
  rw [Nat.add_zero] at h2
  rw [h2, List.drop_zero]
  rfl

/-- C3: the encoded WAV byte list is the 44-byte header with the exact RIFF
chunk size 36 plus data length, WAVE and fmt tags, PCM format 1, the
buffer's channel count, its sample rate, byte rate sampleRate times
channels times 2, block align channels times 2, 16 bits per sample, and a
data chunk of frames times channels times 2 bytes holding each sample
clamped to [-1, 1], scaled by 32767 and written as 16-bit signed
little-endian PCM interleaved by channel. -/
theorem bufferToWav_spec (b : AudioBuffer) :
    (bufferToWav b).length = 44 + b.len * b.numberOfChannels * 2 ∧
    (bufferToWav b).take 4 = riffTag ∧
    ((bufferToWav b).drop 4).take 4 = u32le (36 + b.len * b.numberOfChannels * 2) ∧
    ((bufferToWav b).drop 8).take 4 = waveTag ∧
    ((bufferToWav b).drop 12).take 4 = fmtTag ∧
    ((bufferToWav b).drop 16).take 4 = u32le 16 ∧
    ((bufferToWav b).drop 20).take 2 = u16le 1 ∧
    ((bufferToWav b).drop 22).take 2 = u16le b.numberOfChannels ∧
    ((bufferToWav b).drop 24).take 4 = u32le b.sampleRate ∧
    ((bufferToWav b).drop 28).take 4 = u32le (b.sampleRate * b.numberOfChannels * 2) ∧
    ((bufferToWav b).drop 32).take 2 = u16le (b.numberOfChannels * 2) ∧
    ((bufferToWav b).drop 34).take 2 = u16le 16 ∧
    ((bufferToWav b).drop 36).take 4 = dataTag ∧
    ((bufferToWav b).drop 40).take 4 = u32le (b.len * b.numberOfChannels * 2) ∧
    (bufferToWav b).drop 44 = wavData b ∧
    (∀ i, i < b.len → ∀ c, c < b.numberOfChannels →
      ((bufferToWav b).drop (44 + (i * b.numberOfChannels + c) * 2)).take 2 =
        i16le (sampleToInt16 ((getChannelData b c).getD i 0))) := by
  have hdrop44 : (bufferToWav b).drop 44 = wavData b := rfl
  have hlen : (bufferToWav b).length = 44 + (wavData b).length := by
    simp only [bufferToWav, riffTag, waveTag, fmtTag, dataTag, u32le, u16le,
      List.length_append, List.length_cons, List.length_nil]
  refine ⟨?_, rfl, rfl, rfl, rfl, rfl, rfl, rfl, rfl, rfl, rfl, rfl, rfl, rfl,
    hdrop44, ?_⟩
  · rw [hlen, wavData_length b]
  · intro i hi c hc
    have hsplit : (bufferToWav b).drop (44 + (i * b.numberOfChannels + c) * 2) =
        (wavData b).drop ((i * b.numberOfChannels + c) * 2) := by
      rw [← List.drop_drop, hdrop44]
    rw [hsplit, wavData_bytes b i c hi hc]

/-- Witness for C3 at a concrete one-frame stereo buffer. -/
theorem bufferToWav_spec_witness :
    ((0 : ℕ) < (AudioBuffer.mk 8000 1 [[1/2], [-1/2]]).len ∧
     (0 : ℕ) < (AudioBuffer.mk 8000 1 [[1/2], [-1/2]]).numberOfChannels) ∧
    (bufferToWav (AudioBuffer.mk 8000 1 [[1/2], [-1/2]])).take 4 = riffTag ∧
    ((bufferToWav (AudioBuffer.mk 8000 1 [[1/2], [-1/2]])).drop
        (44 + (0 * (AudioBuffer.mk 8000 1 [[1/2], [-1/2]]).numberOfChannels + 0) * 2)).take 2 =
      i16le (sampleToInt16
        ((getChannelData (AudioBuffer.mk 8000 1 [[1/2], [-1/2]]) 0).getD 0 0)) := by
  refine ⟨⟨by decide, by decide⟩, ?_, ?_⟩
  · exact (bufferToWav_spec (AudioBuffer.mk 8000 1 [[1/2], [-1/2]])).2.1
  · exact (bufferToWav_spec
      (AudioBuffer.mk 8000 1 [[1/2], [-1/2]])).2.2.2.2.2.2.2.2.2.2.2.2.2.2.2
      0 (by decide) 0 (by decide)

/-- Up-mix of a source buffer sample onto one of the two offline render
channels, following the Web Audio speaker up-mix rules the render graph
applies: a mono buffer plays its single channel on both outputs, otherwise
output channel c plays buffer channel c; indices past the end are silent. -/
def upmixSample (b : AudioBuffer) (c i : ℕ) : ℚ :=
  if b.numberOfChannels = 1 then (getChannelData b 0).getD i 0
  else (getChannelData b c).getD i 0

/-- Tracks rendered by Recorder.exportMix: exactly those with a decoded
buffer and not muted get a source node in the offline graph. -/
def exportSources (ts : List Track) : List Track :=
  ts.filter (fun t => t.audioBuffer.isSome && !t.isMuted)

/-- Contribution of one rendered track at channel c, frame i: its buffer
up-mixed to stereo, scaled by the track's channel fader. -/
def trackContribution (t : Track) (c i : ℕ) : ℚ :=
  match t.audioBuffer with
  | none => 0
  | some b => t.channelFader * upmixSample b c i

/-- Summed input of the offline master gain node: the sum of the
contributions of the rendered sources. -/
def exportMixInput (ts : List Track) (c i : ℕ) : ℚ :=
  ((exportSources ts).map (fun t => trackContribution t c i)).sum

/-- C4: export rendering creates sources exactly for the unmuted tracks
that hold audio; a muted track is excluded from the offline graph entirely,
not rendered at zero gain, and the rendered sum equals the mix of the
remaining unmuted tracks. -/
theorem exportMix_mute_exclusion (ts : List Track) :
    (∀ t ∈ exportSources ts, t.isMuted = false ∧ t.audioBuffer.isSome = true) ∧
    (∀ t ∈ ts, t.isMuted = true → t ∉ exportSources ts) ∧
    (∀ c i, exportMixInput ts c i =
      exportMixInput (ts.filter (fun t => !t.isMuted)) c i) := by
  refine ⟨?_, ?_, ?_⟩
  · intro t ht
    have hp := List.of_mem_filter ht
    simp only [Bool.and_eq_true] at hp
    refine ⟨?_, hp.1⟩
    simpa using hp.2
  · intro t _ hmut hmem
    have hp := List.of_mem_filter hmem
    rw [hmut] at hp
    simp at hp
  · intro c i
    rw [exportMixInput, exportMixInput]
    have hsame : exportSources (ts.filter (fun t => !t.isMuted)) = exportSources ts := by
      rw [exportSources, exportSources, List.filter_filter]
      refine List.filter_congr ?_
      intro t _
      cases ht : t.isMuted <;> simp [ht]
    rw [hsame]

/-- Muted track holding audio, used by the C4 witness. -/
def mutedTrack : Track :=
  Track.mk (some (AudioBuffer.mk 8000 1 [[1/2]])) none true false true false 0 1

/-- Witness for C4: a muted track with audio receives no source node. -/
theorem exportMix_mute_exclusion_witness :
    (mutedTrack ∈ [mutedTrack] ∧ mutedTrack.isMuted = true) ∧
    mutedTrack ∉ exportSources [mutedTrack] :=
  ⟨⟨List.mem_singleton.mpr rfl, rfl⟩,
    (exportMix_mute_exclusion [mutedTrack]).2.1 mutedTrack
      (List.mem_singleton.mpr rfl) rfl⟩

/-- Longest loaded track duration scanned by Recorder.exportMix. -/
def maxTrackDuration (ts : List Track) : ℚ :=
  ts.foldl (fun acc t =>
    match t.audioBuffer with
    | none => acc
    | some b => max acc b.duration) 0

/-- Frame count of the offline render context: the longest duration times
the fixed 44100 Hz rate, truncated to an unsigned length as the
OfflineAudioContext constructor does. -/
def renderFrames (ts : List Track) : ℕ :=
  (⌊maxTrackDuration ts * 44100⌋).toNat

/-- Offline render of Recorder.exportMix, parametrized by the limiter
transfer function: a stereo buffer at 44100 Hz whose samples are the summed
unmuted-track contributions scaled by the copied master gain and passed
through the limiter. -/
def renderMix (f : ℚ → ℚ) (masterGain : ℚ) (ts : List Track) : AudioBuffer :=
  { sampleRate := 44100
    len := renderFrames ts
    channels := [
      (List.range (renderFrames ts)).map
        (fun i => f (masterGain * exportMixInput ts 0 i)),
      (List.range (renderFrames ts)).map
        (fun i => f (masterGain * exportMixInput ts 1 i))] }

/-- Export scenario buffer of C5: two seconds of constant one half, mono at
44100 Hz. -/
def scenarioBuffer : AudioBuffer :=
  { sampleRate := 44100, len := 88200, channels := [List.replicate 88200 (1/2)] }

/-- Export scenario track pool of C5: the buffer loaded on track 0, the
other three tracks in their initial empty state. -/
def scenarioTracks : List Track :=
  [loadFileToTrack (Track.mk none none false false false false (8/10) 4) scenarioBuffer,
   Track.mk none none false false false false (8/10) 4,
   Track.mk none none false false false false (8/10) 4,
   Track.mk none none false false false false (8/10) 4]

/-- Exported WAV bytes of the C5 scenario with master gain at its 0.8
default. -/
def scenarioWav (f : ℚ → ℚ) : List ℕ :=
  bufferToWav (renderMix f (8/10) scenarioTracks)

/-- Decoded value of a 16-bit signed little-endian byte pair. -/
def decodeInt16le (b0 b1 : ℕ) : ℤ :=
  if b0 + 256 * b1 < 32768 then (b0 + 256 * b1 : ℤ)
  else (b0 + 256 * b1 : ℤ) - 65536

theorem bufferToWav_length (b : AudioBuffer) :
    (bufferToWav b).length = 44 + b.len * b.numberOfChannels * 2 := by
  have hl : (bufferToWav b).length = 44 + (wavData b).length := by
    simp only [bufferToWav, riffTag, waveTag, fmtTag, dataTag, u32le, u16le,
      List.length_append, List.length_cons, List.length_nil]
  rw [hl, wavData_length b]

theorem scenario_mix_input (ch j : ℕ) (hj : j < 88200) :
    exportMixInput scenarioTracks ch j = 2/5 := by
  have hsrc : exportSources scenarioTracks =
      [loadFileToTrack (Track.mk none none false false false false (8/10) 4)
        scenarioBuffer] := rfl
  rw [exportMixInput, hsrc]
  simp only [List.map_cons, List.map_nil, List.sum_cons, List.sum_nil, add_zero]
  show (8/10 : ℚ) * upmixSample scenarioBuffer ch j = 2/5
  have hupx : upmixSample scenarioBuffer ch j =
      (getChannelData scenarioBuffer 0).getD j 0 := by
    rw [upmixSample, if_pos (show scenarioBuffer.numberOfChannels = 1 from rfl)]
  rw [hupx]
  rw [show getChannelData scenarioBuffer 0 = List.replicate 88200 (1/2 : ℚ) from rfl]
  rw [List.getD_eq_getElem?_getD, List.getElem?_replicate, if_pos hj]
  norm_num

/-- C5: exporting the scenario through any limiter that is transparent
below its -0.5 dB threshold produces a WAV whose declared and actual data
length is 88200 * 2 * 2 bytes, and every sample pair decodes to
10485 / 32767, within 0.1 of one half scaled by the default 0.8 fader and
not clipped beyond magnitude 1. -/
theorem export_scenario_spec (f : ℚ → ℚ)
    (hf : ∀ x : ℚ, 10 * |x| ^ 40 ≤ 1 → f x = x) :
    ((scenarioWav f).drop 40).take 4 = u32le (88200 * 2 * 2) ∧
    (scenarioWav f).length = 44 + 88200 * 2 * 2 ∧
    (∀ i, i < 88200 → ∀ c, c < 2 → ∃ e0 e1 : ℕ,
      ((scenarioWav f).drop (44 + (i * 2 + c) * 2)).take 2 = [e0, e1] ∧
      ((decodeInt16le e0 e1 : ℚ)) / 32767 = 10485 / 32767 ∧
      |((decodeInt16le e0 e1 : ℚ)) / 32767 - (1/2) * (8/10)| < 1/10 ∧
      |((decodeInt16le e0 e1 : ℚ)) / 32767| ≤ 1) := by
  have hmd : maxTrackDuration scenarioTracks = 2 := by
    show max 0 ((scenarioBuffer.len : ℚ) / (scenarioBuffer.sampleRate : ℚ)) = 2
    rw [show ((scenarioBuffer.len : ℚ) / (scenarioBuffer.sampleRate : ℚ)) = 2 from
      by norm_num [scenarioBuffer]]
    exact max_eq_right (by norm_num)
  have hrf : renderFrames scenarioTracks = 88200 := by
    rw [renderFrames, hmd]
    rw [show ⌊(2 : ℚ) * 44100⌋ = 88200 from by norm_num]
    rfl
  have hlenB : (renderMix f (8/10) scenarioTracks).len = 88200 := hrf
  have hchB : (renderMix f (8/10) scenarioTracks).numberOfChannels = 2 := rfl
  have hfval : f ((8/10 : ℚ) * (2/5)) = 8/25 := by
    have h1 : ((8/10 : ℚ) * (2/5)) = 8/25 := by norm_num
    rw [h1]
    refine hf (8/25) ?_
    rw [show |(8 : ℚ)/25| = 8/25 from abs_of_pos (by norm_num)]
    norm_num
  have hs16 : sampleToInt16 (8/25) = 10485 := by
    unfold sampleToInt16 jsTrunc
    rw [show min (1 : ℚ) (8/25) = 8/25 from min_eq_right (by norm_num),
      show max (-1 : ℚ) (8/25) = 8/25 from max_eq_right (by norm_num),
      if_pos (show (0 : ℚ) ≤ 8/25 * 32767 from by norm_num)]
    norm_num
  have hi16 : i16le (10485 : ℤ) = [245, 40] := by
    unfold i16le toUint16 u16le
    norm_num
    decide
  have hd245 : decodeInt16le 245 40 = 10485 := by
    unfold decodeInt16le
    norm_num
  refine ⟨?_, ?_, ?_⟩
  · show ((bufferToWav (renderMix f (8/10) scenarioTracks)).drop 40).take 4 = _
    have h40 : ((bufferToWav (renderMix f (8/10) scenarioTracks)).drop 40).take 4 =
        u32le ((renderMix f (8/10) scenarioTracks).len *
          (renderMix f (8/10) scenarioTracks).numberOfChannels * 2) := rfl
    rw [h40, hlenB, hchB]
  · show (bufferToWav (renderMix f (8/10) scenarioTracks)).length = _
    rw [bufferToWav_length, hlenB, hchB]
  · intro i hi c hc
    have hi' : i < (renderMix f (8/10) scenarioTracks).len := by
      rw [hlenB]; exact hi
    have hc' : c < (renderMix f (8/10) scenarioTracks).numberOfChannels := by
      rw [hchB]; exact hc
    have hbytes := wavData_bytes (renderMix f (8/10) scenarioTracks) i c hi' hc'
    rw [hchB] at hbytes
    have hsample : (getChannelData (renderMix f (8/10) scenarioTracks) c).getD i 0 =
        f ((8/10) * exportMixInput scenarioTracks c i) := by
      have hiR : i < renderFrames scenarioTracks := hi'
      interval_cases c
      · show ((List.range (renderFrames scenarioTracks)).map
            (fun t => f ((8/10) * exportMixInput scenarioTracks 0 t))).getD i 0 = _
        rw [List.getD_eq_getElem?_getD, List.getElem?_map, List.getElem?_range hiR]
        rfl
      · show ((List.range (renderFrames scenarioTracks)).map
            (fun t => f ((8/10) * exportMixInput scenarioTracks 1 t))).getD i 0 = _
        rw [List.getD_eq_getElem?_getD, List.getElem?_map, List.getElem?_range hiR]
        rfl
    refine ⟨245, 40, ?_, by rw [hd245]; norm_num,
      by rw [hd245]; norm_num [abs_lt], by rw [hd245]; norm_num [abs_le]⟩
    show ((bufferToWav (renderMix f (8/10) scenarioTracks)).drop
      (44 + (i * 2 + c) * 2)).take 2 = [245, 40]
    have hsplit : (bufferToWav (renderMix f (8/10) scenarioTracks)).drop
        (44 + (i * 2 + c) * 2) =
        (wavData (renderMix f (8/10) scenarioTracks)).drop ((i * 2 + c) * 2) := by
      rw [← List.drop_drop]
      rfl
    rw [hsplit, hbytes, hsample, scenario_mix_input c i hi, hfval, hs16, hi16]

/-- Witness for C5 with the identity limiter, which is transparent below
the threshold. -/
theorem export_scenario_spec_witness :
    (∀ x : ℚ, 10 * |x| ^ 40 ≤ 1 → (fun y : ℚ => y) x = x) ∧
    ((scenarioWav (fun y => y)).drop 40).take 4 = u32le (88200 * 2 * 2) ∧
    (scenarioWav (fun y => y)).length = 44 + 88200 * 2 * 2 ∧
    (∀ i, i < 88200 → ∀ c, c < 2 → ∃ e0 e1 : ℕ,
      ((scenarioWav (fun y => y)).drop (44 + (i * 2 + c) * 2)).take 2 = [e0, e1] ∧
      ((decodeInt16le e0 e1 : ℚ)) / 32767 = 10485 / 32767 ∧
      |((decodeInt16le e0 e1 : ℚ)) / 32767 - (1/2) * (8/10)| < 1/10 ∧
      |((decodeInt16le e0 e1 : ℚ)) / 32767| ≤ 1) :=
  ⟨fun _ _ => rfl, export_scenario_spec (fun y => y) (fun _ _ => rfl)⟩

end Looper
